import Mathlib

/-!
# Verification of the IS601-Midterm calculator's core contracts

Shallow embedding of the repository's history store (`app/history/manager.py`),
application bootstrap and REPL dispatcher (`app/__init__.py`), and plugin
loader, together with proofs settling the frozen specification claims.

Python strings are modelled as `List Char`; the pandas `DataFrame` held by the
history manager is modelled as a list of (integer row label, row) pairs plus a
column-name list.  Library behaviour that the code relies on (pandas
`concat`/`drop`/`reset_index`/`to_csv`/`read_csv`, Python `re` search via
`Series.str.contains`, Python name mangling, `SystemExit` exit-status rules)
is embedded explicitly, with each embedding documented at its definition.
-/

/-- A Python string, modelled as its list of characters. -/
abbrev Str := List Char

/-- A cell value held in the history dataframe.  The repository stores
timestamps, operation names and rendered input lists as Python `str`, and
results as numbers; this model carries `int` and `str` cells (the two kinds
exercised by every claim; `float`/`bool`/`NaN` cells are outside the model). -/
inductive Value where
  | int (n : Int)
  | str (s : Str)
deriving DecidableEq, Repr

/-- Python `str(v)` on a cell value: integers render in decimal, strings are
themselves (this is what `df.astype(str)` produces per cell). -/
def pyStr : Value → Str
  | .int n => (toString n).toList
  | .str s => s

/-- Python `repr(v)` as used inside `str(list)`: integers render in decimal;
strings are wrapped in single-quote characters. -/
def pyRepr : Value → Str
  | .int n => (toString n).toList
  | .str s => Char.ofNat 39 :: s ++ [Char.ofNat 39]

/-- Python `str(inputs)` for a list argument: `"[a, b, ...]"` with elements
rendered by `repr` and separated by `", "` — the textual rendering that
`add_calculation` stores in the `inputs` column. -/
def pyStrList (vs : List Value) : Str :=
  '[' :: (List.intercalate (", ".toList) (vs.map pyRepr)) ++ [']']

/-- One history row, mirroring the dict built in
`HistoryManager.add_calculation` (and one parsed CSV record). -/
structure Row where
  timestamp : Value
  operation : Value
  inputs    : Value
  result    : Value
deriving DecidableEq, Repr

/-- The `str` renderings of the four fields of a row, in canonical column
order — what `df.astype(str)` exposes to `search_history`. -/
def rowStrings (r : Row) : List Str :=
  [pyStr r.timestamp, pyStr r.operation, pyStr r.inputs, pyStr r.result]

/-- The canonical column names set in `HistoryManager.__init__`
(`self.columns = ['timestamp', 'operation', 'inputs', 'result']`). -/
def canonicalCols : List Str :=
  ["timestamp".toList, "operation".toList, "inputs".toList, "result".toList]

/-- Label the rows of a list with consecutive integer labels starting at `k`
— the pandas `RangeIndex` produced by `read_csv`, `concat(ignore_index=True)`
and `reset_index(drop=True)`. -/
def indexRowsFrom (k : Nat) : List Row → List (Nat × Row)
  | [] => []
  | r :: rs => (k, r) :: indexRowsFrom (k + 1) rs

/-- Row labels `0, 1, ..., n-1` (a fresh pandas `RangeIndex`). -/
def indexRows (rs : List Row) : List (Nat × Row) :=
  indexRowsFrom 0 rs

/-- The in-memory pandas `DataFrame` of the history manager: column names plus
rows tagged with their pandas index labels. -/
structure DF where
  cols : List Str
  rows : List (Nat × Row)
deriving DecidableEq, Repr

/-- `pd.DataFrame(columns=self.columns)`: empty frame with the canonical
columns. -/
def emptyDF : DF :=
  { cols := canonicalCols, rows := [] }

/-- The row labels of the in-memory table are exactly `0..size-1` in insertion
order (a fresh `RangeIndex`). -/
def labelsCanonical (df : DF) : Prop :=
  df.rows.map Prod.fst = List.range df.rows.length

/-- `HistoryManager.add_calculation(operation, inputs, result)`: builds the
row dict (timestamp from the clock, `str(inputs)` for the inputs column, the
result stored as given) and appends it with
`pd.concat([self.df, pd.DataFrame([new_row])], ignore_index=True)`, which
relabels all rows `0..n`; returns `True` (the `except` branch logs and returns
`False`, but no step of this pure model can raise).  The wall-clock reading
`datetime.now().strftime("%Y-%m-%d %H:%M:%S")` is passed in as `ts`. -/
def add_calculation (ts : Str) (operation : Str) (inputs : List Value)
    (result : Value) (df : DF) : DF × Bool :=
  let newRow : Row :=
    { timestamp := .str ts
      operation := .str operation
      inputs := .str (pyStrList inputs)
      result := result }
  ({ df with rows := indexRows (df.rows.map Prod.snd ++ [newRow]) }, true)

/-- `HistoryManager.get_history(limit)`: `if limit and limit > 0: return
self.df.tail(limit)` — a `None` or non-positive limit returns everything
(`None` and `0` are falsy; a negative limit fails the `> 0` test); a positive
limit returns the last `limit` rows (`DataFrame.tail`). -/
def get_history (limit : Option Int) (df : DF) : List (Nat × Row) :=
  match limit with
  | some l => if l ≠ 0 ∧ l > 0 then df.rows.drop (df.rows.length - l.toNat) else df.rows
  | none => df.rows

/-- `HistoryManager.clear_history()`: replaces the frame with
`pd.DataFrame(columns=self.columns)`.  The success path has no `return`
statement, so Python returns `None` (modelled `none`); the `except` branch
would return `False` (`some false`), but constructing an empty frame cannot
raise, so the failure branch is unreachable in the model. -/
def clear_history (_df : DF) : DF × Option Bool :=
  (emptyDF, none)

/-- `HistoryManager.delete_entry(index)`: when `0 <= index < len(self.df)`,
performs the label-based `self.df.drop(index)` followed by
`reset_index(drop=True)` and returns `True`; otherwise logs a warning and
returns `False` leaving the frame untouched.  On every reachable state the
labels are the canonical `RangeIndex` (proved below), so the dropped label is
present and `drop` cannot raise `KeyError`. -/
def delete_entry (index : Int) (df : DF) : DF × Bool :=
  if 0 ≤ index ∧ index < (df.rows.length : Int) then
    ({ df with
       rows := indexRows ((df.rows.filter (fun p => p.1 ≠ index.toNat)).map Prod.snd) },
     true)
  else
    (df, false)

section IndexLemmas

theorem indexRowsFrom_map_snd (k : Nat) (rs : List Row) :
    (indexRowsFrom k rs).map Prod.snd = rs := by
  induction rs generalizing k with
  | nil => rfl
  | cons r rs ih => simp [indexRowsFrom, ih]

theorem indexRows_map_snd (rs : List Row) :
    (indexRows rs).map Prod.snd = rs :=
  indexRowsFrom_map_snd 0 rs

theorem indexRowsFrom_length (k : Nat) (rs : List Row) :
    (indexRowsFrom k rs).length = rs.length := by
  induction rs generalizing k with
  | nil => rfl
  | cons r rs ih => simp [indexRowsFrom, ih]

theorem indexRowsFrom_map_fst (k : Nat) (rs : List Row) :
    (indexRowsFrom k rs).map Prod.fst = List.range' k rs.length := by
  induction rs generalizing k with
  | nil => rfl
  | cons r rs ih => simp [indexRowsFrom, ih, List.range']

theorem indexRows_canonical (rs : List Row) :
    (indexRows rs).map Prod.fst = List.range (indexRows rs).length := by
  rw [indexRows, indexRowsFrom_map_fst, indexRowsFrom_length, List.range_eq_range']

/-- A labelled row list whose labels are `k, k+1, ...` is `indexRowsFrom k` of
its values. -/
theorem eq_indexRowsFrom_of_labels (l : List (Nat × Row)) (k : Nat)
    (h : l.map Prod.fst = List.range' k l.length) :
    l = indexRowsFrom k (l.map Prod.snd) := by
  induction l generalizing k with
  | nil => rfl
  | cons p l ih =>
    simp only [List.map_cons, List.length_cons, List.range', List.cons.injEq] at h
    obtain ⟨h1, h2⟩ := h
    simp only [List.map_cons, indexRowsFrom]
    rw [← ih (k + 1) h2, ← h1]

/-- On a canonically labelled list, filtering out label `j` and taking the
values is `eraseIdx j` of the values: the label-based `drop` removes exactly
the row at zero-based position `j`. -/
theorem filter_indexRowsFrom_ne (rs : List Row) (k j : Nat) :
    ((indexRowsFrom k rs).filter (fun p => p.1 ≠ k + j)).map Prod.snd
      = rs.eraseIdx j := by
  induction rs generalizing k j with
  | nil => rfl
  | cons r rs ih =>
    cases j with
    | zero =>
      rw [indexRowsFrom,
        List.filter_cons_of_neg (by simp only [decide_eq_true_eq]; omega),
        List.eraseIdx_cons_zero]
      rw [List.filter_eq_self.mpr ?_, indexRowsFrom_map_snd]
      intro p hp
      have hmem := List.mem_map_of_mem Prod.fst hp
      rw [indexRowsFrom_map_fst] at hmem
      obtain ⟨i, hi, hpi⟩ := List.mem_range'.mp hmem
      simp only [decide_eq_true_eq]
      omega
    | succ j' =>
      rw [indexRowsFrom,
        List.filter_cons_of_pos (by simp only [decide_eq_true_eq]; omega),
        List.map_cons, List.eraseIdx_cons_succ]
      have hk : k + (j' + 1) = (k + 1) + j' := by omega
      rw [hk, ih (k + 1) j']

/-- Specialisation to a canonical `RangeIndex` starting at 0: the label-based
drop of label `j` removes exactly the row at zero-based position `j`. -/
theorem filter_indexRows_ne (rs : List Row) (j : Nat) :
    ((indexRows rs).filter (fun p => p.1 ≠ j)).map Prod.snd = rs.eraseIdx j := by
  have h := filter_indexRowsFrom_ne rs 0 j
  simpa using h

/-! ## The search used by `HistoryManager.search_history`

`search_history` runs `row.str.contains(term, case=False)` on every row of
`self.df.astype(str)`.  pandas `Series.str.contains` with its default
`regex=True` compiles `term` with Python's `re` module (here with
`re.IGNORECASE`) and tests `re.search`, i.e. a match may start at any
position.  The model embeds the fragment of `re` that literal characters and
the `.` metacharacter generate — enough for every term appearing in the
claims; terms using other metacharacters (or invalid regexes, which would hit
the logged internal-failure branch returning an empty frame) are outside the
model. -/

/-- One compiled regex element: a literal character or the `.` wildcard. -/
inductive PChar where
  | lit (c : Char)
  | dot
deriving DecidableEq, Repr

/-- `re.compile(term)` on the modelled fragment: `.` becomes the wildcard,
every other character a literal. -/
def compilePat (term : Str) : List PChar :=
  term.map (fun c => if c = '.' then PChar.dot else PChar.lit c)

/-- Element match under `re.IGNORECASE` (pandas `case=False`). -/
def pcharMatch : PChar → Char → Bool
  | .lit c, d => c.toLower == d.toLower
  | .dot, _ => true

/-- The pattern matches a prefix of the string. -/
def matchHere : List PChar → Str → Bool
  | [], _ => true
  | _ :: _, [] => false
  | p :: ps, c :: cs => pcharMatch p c && matchHere ps cs

/-- `re.search`: the pattern matches starting at some position. -/
def reSearch (pat : List PChar) : Str → Bool
  | [] => matchHere pat []
  | c :: cs => matchHere pat (c :: cs) || reSearch pat cs

/-- Case-insensitive prefix test on raw strings. -/
def isPrefixCI (n h : Str) : Bool :=
  (n.map Char.toLower).isPrefixOf (h.map Char.toLower)

/-- Case-insensitive literal-substring test on raw strings (the relation the
spec's `searchHistory` sentence describes). -/
def containsCI (n : Str) : Str → Bool
  | [] => n.isEmpty
  | c :: cs => isPrefixCI n (c :: cs) || containsCI n cs

/-- `HistoryManager.search_history(term)`: renders every cell with
`astype(str)`, keeps the rows where the compiled pattern matches at least one
field (`row.str.contains(term, case=False).any()`), and returns those rows of
the original frame (`self.df[mask]`) in their original order with their
original labels. -/
def search_history (term : Str) (df : DF) : List (Nat × Row) :=
  df.rows.filter (fun p => (rowStrings p.2).any (fun s => reSearch (compilePat term) s))

/-- The matching the spec's sentence for `searchHistory` describes: `term`
occurs case-insensitively as a literal substring of the rendering of at least
one field.  Stated from the spec's words, to be compared with
`search_history`. -/
def literalSearch (term : Str) (df : DF) : List (Nat × Row) :=
  df.rows.filter (fun p => (rowStrings p.2).any (fun s => containsCI term s))

/-- Characters with a special meaning inside a Python regular expression. -/
def isRegexMeta (c : Char) : Bool :=
  c ∈ ['.', '*', '+', '?', '[', ']', '(', ')', '|', '^', '$', '\\',
    Char.ofNat 123, Char.ofNat 125]

section SearchLemmas

theorem matchHere_lits (t : Str) : ∀ s : Str,
    matchHere (t.map PChar.lit) s = isPrefixCI t s := by
  induction t with
  | nil => intro s; simp [matchHere, isPrefixCI, List.isPrefixOf]
  | cons c t ih =>
    intro s
    cases s with
    | nil => simp [matchHere, isPrefixCI, List.isPrefixOf]
    | cons d s' =>
      simp only [List.map_cons, matchHere, pcharMatch, isPrefixCI,
        List.isPrefixOf, ih s']

theorem reSearch_lits (t : Str) : ∀ s : Str,
    reSearch (t.map PChar.lit) s = containsCI t s := by
  intro s
  induction s with
  | nil =>
    cases t with
    | nil => rfl
    | cons c t' => simp [reSearch, matchHere, containsCI, List.isEmpty]
  | cons c cs ih =>
    simp only [reSearch, containsCI, matchHere_lits, ih]

theorem compilePat_of_no_meta (term : Str)
    (h : term.all (fun c => !(isRegexMeta c)) = true) :
    compilePat term = term.map PChar.lit := by
  induction term with
  | nil => rfl
  | cons c t ih =>
    simp only [List.all_cons, Bool.and_eq_true, Bool.not_eq_true'] at h
    obtain ⟨h1, h2⟩ := h
    have hc : c ≠ '.' := by
      intro hcc
      rw [hcc] at h1
      simp [isRegexMeta] at h1
    simp only [compilePat, List.map_cons] at *
    rw [if_neg hc, ih h2]

end SearchLemmas

/-! ## CSV persistence (`save_history` / `_load_history`)

`save_history` writes the frame with `self.df.to_csv(self.history_file,
index=False)`; `_load_history` reads it back with `pd.read_csv`.  The file is
modelled at cell granularity: a header plus one record of four encoded cell
strings per row (the comma-join of properly quoted cells and its split being
inverse is pandas' CSV-layer guarantee).  `to_csv` renders each cell with
`str` and applies minimal quoting (a cell containing a comma, double quote or
newline is wrapped in double quotes with inner quotes doubled).  `read_csv`
undoes the quoting and then infers one dtype per column: a column all of
whose cells parse as integers becomes an integer column, any other column is
kept as strings.  (Float/bool/NaN column inference is outside the model; the
`cellStable` predicate below excludes cells that would trigger it.) -/

/-- The double-quote character. -/
def dq : Char := Char.ofNat 34

/-- Minimal-quoting trigger: comma, double quote or newline in the cell. -/
def needsQuote (s : Str) : Bool :=
  s.any (fun c => c = ',' || c = dq || c = '\n')

/-- Double every double quote (CSV escaping inside a quoted cell). -/
def escQuotes : Str → Str
  | [] => []
  | c :: cs => if c = dq then dq :: dq :: escQuotes cs else c :: escQuotes cs

/-- Encode one cell: quote it only when needed (`QUOTE_MINIMAL`). -/
def quoteCell (s : Str) : Str :=
  if needsQuote s then dq :: (escQuotes s ++ [dq]) else s

/-- Collapse doubled double quotes (CSV unescaping inside a quoted cell). -/
def unescQuotes : Str → Str
  | [] => []
  | [c] => [c]
  | c :: d :: cs =>
    if c = dq && d = dq then dq :: unescQuotes cs else c :: unescQuotes (d :: cs)

/-- Drop a closing double quote at the end of a quoted cell body. -/
def dropFinalDq (s : Str) : Str :=
  if s.getLast? = some dq then s.dropLast else s

/-- Decode one raw cell string: strip surrounding quotes and unescape. -/
def unquoteCell (s : Str) : Str :=
  match s with
  | [] => []
  | c :: rest => if c = dq then unescQuotes (dropFinalDq rest) else s

/-- The cell text parses as a (decimal) integer: an optional sign followed by
at least one digit — the texts pandas turns into an integer column. -/
def isIntString (s : Str) : Bool :=
  match s with
  | [] => false
  | c :: rest =>
    let body := if c = '-' ∨ c = '+' then rest else c :: rest
    !body.isEmpty && body.all (fun d => d.isDigit)

/-- Decimal value of a digit string. -/
def digitsToNat (s : Str) : Nat :=
  s.foldl (fun a c => a * 10 + (c.toNat - 48)) 0

/-- Integer value of a signed digit string. -/
def parseIntStr (s : Str) : Int :=
  match s with
  | '-' :: rest => -(digitsToNat rest : Int)
  | '+' :: rest => (digitsToNat rest : Int)
  | _ => (digitsToNat s : Int)

/-- One line of the persisted CSV file: the four encoded cells of a row, in
canonical column order. -/
structure CsvRec where
  tsCell  : Str
  opCell  : Str
  inCell  : Str
  resCell : Str
deriving DecidableEq, Repr

/-- The persisted CSV file: header line plus data records. -/
structure CsvFile where
  header : List Str
  recs   : List CsvRec
deriving DecidableEq, Repr

/-- Encode one row for `to_csv`: `str` rendering plus minimal quoting. -/
def encodeRow (r : Row) : CsvRec :=
  { tsCell := quoteCell (pyStr r.timestamp)
    opCell := quoteCell (pyStr r.operation)
    inCell := quoteCell (pyStr r.inputs)
    resCell := quoteCell (pyStr r.result) }

/-- `self.df.to_csv(self.history_file, index=False)`: header from the frame's
columns, one record per row, labels not written. -/
def to_csv (df : DF) : CsvFile :=
  { header := df.cols, recs := df.rows.map (fun p => encodeRow p.2) }

/-- Decode one cell given its column's inferred dtype. -/
def decodeCell (isIntCol : Bool) (s : Str) : Value :=
  let u := unquoteCell s
  if isIntCol then .int (parseIntStr u) else .str u

/-- Per-column dtype inference of `read_csv`: one flag per canonical column,
`true` iff every cell of that column parses as an integer (the column is
then loaded as integers; otherwise it is kept as strings). -/
def colFlags (f : CsvFile) : Bool × Bool × Bool × Bool :=
  (f.recs.all (fun rec => isIntString (unquoteCell rec.tsCell)),
   f.recs.all (fun rec => isIntString (unquoteCell rec.opCell)),
   f.recs.all (fun rec => isIntString (unquoteCell rec.inCell)),
   f.recs.all (fun rec => isIntString (unquoteCell rec.resCell)))

/-- Decode one record into a row, given the four column dtype flags. -/
def decodeRow (fl : Bool × Bool × Bool × Bool) (rec : CsvRec) : Row :=
  { timestamp := decodeCell fl.1 rec.tsCell
    operation := decodeCell fl.2.1 rec.opCell
    inputs := decodeCell fl.2.2.1 rec.inCell
    result := decodeCell fl.2.2.2 rec.resCell }

/-- `pd.read_csv(self.history_file)`: columns from the header, per-column
dtype inference (integer column iff every cell parses as an integer), and a
fresh `RangeIndex` `0..n-1`. -/
def read_csv (f : CsvFile) : DF :=
  { cols := f.header
    rows := indexRows (f.recs.map (decodeRow (colFlags f))) }

/-- Numeric-looking non-integer text (would be inferred as a float column by
real pandas, which is outside the model). -/
def numericLike (s : Str) : Bool :=
  s.all (fun c => c ∈ "+-.eE0123456789".toList) && s.any (fun c => c.isDigit)

/-- Texts pandas turns into a boolean column. -/
def boolLike (s : Str) : Bool :=
  s == "True".toList || s == "False".toList

/-- Texts pandas reads back as missing values (`NaN`). -/
def naLike (s : Str) : Bool :=
  (["nan", "NaN", "NAN", "null", "NULL", "None",
    "n/a", "N/A", "NA"].map String.toList).contains s

/-- A cell whose `str` rendering survives the CSV round trip unchanged: the
rendering is non-empty (an empty cell reloads as `NaN`) and either is the
canonical rendering of the integer it parses to, or is none of the texts that
column-dtype inference would convert.  Commas, double quotes and newlines
are no obstacle: `to_csv`'s minimal quoting and quote doubling encode them
and `read_csv` decodes them back verbatim (proved below for every string). -/
def cellStable (v : Value) : Bool :=
  let s := pyStr v
  !s.isEmpty &&
    (if isIntString s then pyStr (.int (parseIntStr s)) == s
     else !(numericLike s || boolLike s || naLike s))

/-- All four cells of the row are stable. -/
def rowStable (r : Row) : Bool :=
  cellStable r.timestamp && cellStable r.operation &&
    cellStable r.inputs && cellStable r.result

section CsvLemmas

/-- Unescaping steps over a non-quote head character. -/
theorem unescQuotes_cons_of_ne (c : Char) (t : Str) (h : ¬ c = dq) :
    unescQuotes (c :: t) = c :: unescQuotes t := by
  cases t with
  | nil => rfl
  | cons d t' =>
    rw [unescQuotes, if_neg]
    simp [h]

/-- Quote doubling round-trips: unescaping undoes escaping on every string,
quote characters included. -/
theorem unescQuotes_escQuotes (s : Str) : unescQuotes (escQuotes s) = s := by
  induction s with
  | nil => rfl
  | cons c cs ih =>
    by_cases hc : c = dq
    · subst hc
      rw [escQuotes, if_pos rfl, unescQuotes, if_pos (by simp), ih]
    · rw [escQuotes, if_neg hc, unescQuotes_cons_of_ne c _ hc, ih]

/-- The cell codec round-trips on every string: quoting (with quote doubling)
and unquoting are mutually inverse, so cells containing commas, double
quotes or newlines are preserved verbatim. -/
theorem unquote_quote (s : Str) : unquoteCell (quoteCell s) = s := by
  by_cases hq : needsQuote s = true
  · rw [quoteCell, if_pos hq, unquoteCell, if_pos rfl, dropFinalDq]
    have h1 : (escQuotes s ++ [dq]).getLast? = some dq := by simp
    have h2 : (escQuotes s ++ [dq]).dropLast = escQuotes s := by simp
    rw [if_pos h1, h2, unescQuotes_escQuotes]
  · rw [quoteCell, if_neg hq]
    cases s with
    | nil => rfl
    | cons c cs =>
      have hc : ¬ c = dq := by
        intro hcc
        apply hq
        subst hcc
        rw [needsQuote, List.any_cons]
        simp
      rw [unquoteCell, if_neg hc]

/-- Decoding an encoded stable cell gives back the same rendering, whatever
dtype its column was inferred to have (provided an integer dtype is only
claimed when the cell's text does parse as an integer). -/
theorem decodeCell_render (flag : Bool) (v : Value) (hv : cellStable v = true)
    (hflag : flag = true → isIntString (pyStr v) = true) :
    pyStr (decodeCell flag (quoteCell (pyStr v))) = pyStr v := by
  cases flag with
  | false => exact unquote_quote _
  | true =>
    have hint := hflag rfl
    rw [cellStable, Bool.and_eq_true] at hv
    have h3 := hv.2
    rw [hint, if_pos rfl] at h3
    calc pyStr (decodeCell true (quoteCell (pyStr v)))
        = pyStr (.int (parseIntStr (unquoteCell (quoteCell (pyStr v))))) := rfl
      _ = pyStr (.int (parseIntStr (pyStr v))) := by rw [unquote_quote]
      _ = pyStr v := eq_of_beq h3

end CsvLemmas

/-! ## The singleton lifecycle of `HistoryManager`

`HistoryManager.__new__` stores the unique instance in the class attribute
`__instance` and, on first creation, sets `self.__initialized = False` on the
instance.  Both occur in the class body, so Python name mangling turns them
into `_HistoryManager__instance` / `_HistoryManager__initialized`.
`__init__` guards its body with `if not getattr(self, '__initialized',
False)` — a string literal, which Python does *not* mangle, so the looked-up
attribute name is the plain `__initialized`.  The model carries the
instance's Boolean attributes as a name-keyed association list so that both
spellings exist side by side exactly as in CPython. -/

/-- The attribute name assigned by `self.__initialized = ...` inside the
class body (after name mangling). -/
def mangledInitName : Str := "_HistoryManager__initialized".toList

/-- The attribute name looked up by `getattr(self, '__initialized', False)`
(string literals are not mangled). -/
def plainInitName : Str := "__initialized".toList

/-- The singleton `HistoryManager` instance: its Boolean attribute dict and
its dataframe. -/
structure HMObj where
  attrs : List (Str × Bool)
  df : DF
deriving DecidableEq, Repr

/-- `getattr(obj, name, default)` restricted to the Boolean attributes. -/
def getattrB (o : HMObj) (name : Str) (dflt : Bool) : Bool :=
  (o.attrs.lookup name).getD dflt

/-- `obj.name = b` (new binding shadows any previous one). -/
def setattrB (o : HMObj) (name : Str) (b : Bool) : HMObj :=
  { o with attrs := (name, b) :: o.attrs }

/-- Process state: the persisted history file (`none` if absent) and the
class attribute `_HistoryManager__instance` (`none` before first
construction). -/
structure ProcState where
  file : Option CsvFile
  inst : Option HMObj
deriving DecidableEq, Repr

/-- `HistoryManager._load_history`: read the CSV file if it exists, else
start with an empty frame with the canonical columns (the file is not
created). -/
def load_history (file : Option CsvFile) : DF :=
  match file with
  | some f => read_csv f
  | none => emptyDF

/-- `HistoryManager.__init__`: runs its body only if
`getattr(self, '__initialized', False)` is falsy; the body (re)loads the
history into `self.df` and finally sets `self.__initialized = True`, which
mangles to `_HistoryManager__initialized`. -/
def hmInit (o : HMObj) (file : Option CsvFile) : HMObj :=
  if getattrB o plainInitName false then o
  else setattrB { o with df := load_history file } mangledInitName true

/-- `HistoryManager()`: `__new__` returns the stored instance, creating it
(with the mangled initialized-flag attribute set to `False`) only when the
class attribute is still `None`; Python then always invokes `__init__` on
the returned instance. -/
def constructHM (st : ProcState) : ProcState :=
  let o := match st.inst with
    | some o => o
    | none => { attrs := [(mangledInitName, false)], df := emptyDF }
  { st with inst := some (hmInit o st.file) }

/-- A method call `<instance>.add_calculation(op, inputs, result)` on the
current singleton (no construction involved). -/
def instAdd (ts op : Str) (inputs : List Value) (result : Value)
    (st : ProcState) : ProcState :=
  { st with inst := st.inst.map (fun o => { o with df := (add_calculation ts op inputs result o.df).1 }) }

/-- A method call `<instance>.save_history()` on the current singleton:
`self.df.to_csv(self.history_file, index=False)` replaces the file. -/
def instSave (st : ProcState) : ProcState :=
  match st.inst with
  | some o => { st with file := some (to_csv o.df) }
  | none => st

/-- `HistoryManager().add_calculation(...)` — construction followed by the
method call, as on line 38 of `app/__init__.py`. -/
def hmCallAdd (ts op : Str) (inputs : List Value) (result : Value)
    (st : ProcState) : ProcState :=
  instAdd ts op inputs result (constructHM st)

/-- `HistoryManager().save_history()` — construction followed by the method
call, as on line 39 of `app/__init__.py`. -/
def hmCallSave (st : ProcState) : ProcState :=
  instSave (constructHM st)

/-- The history-touching steps of `App.__init__` (lines 36–39):
`self.history_manager = HistoryManager()`, then
`HistoryManager().add_calculation('add', [1, 2], 3)`, then
`HistoryManager().save_history()`.  `ts` is the wall-clock reading used by
the `add_calculation` call. -/
def appInitHistory (ts : Str) (st : ProcState) : ProcState :=
  hmCallSave (hmCallAdd ts "add".toList [.int 1, .int 2] (.int 3) (constructHM st))

/-! ## The REPL dispatcher (`App.start`)

Each iteration reads a line, strips it, compares it case-insensitively with
the reserved token `exit`, and otherwise hands it to
`CommandHandler.execute_command` inside a `try` whose `except Exception`
clause logs and continues.  `execute_command` lives in `app/commands`, which
is not part of the sources; its behaviour is abstracted as an arbitrary
outcome function (it either returns or raises an `Exception`-level error).
`raise SystemExit(arg)` escapes the `except Exception` clause (in Python,
`SystemExit` derives from `BaseException`, not `Exception`) and terminates
the interpreter with CPython's exit-status rule: status 0 for `None`, the
number itself for an `int`, and status 1 (with the object printed to stderr)
for anything else — in particular for a string message. -/

/-- The argument carried by a raised `SystemExit`. -/
inductive ExitArg where
  | noneArg
  | intArg (n : Int)
  | strArg (s : Str)
deriving DecidableEq, Repr

/-- CPython's process exit status for `SystemExit(arg)`. -/
def systemExitStatus : ExitArg → Int
  | .noneArg => 0
  | .intArg n => n
  | .strArg _ => 1

/-- Outcome of `self.command_handler.execute_command(command)`: it either
returns normally or raises an `Exception`-level error with a message. -/
inductive ExecOutcome where
  | ok
  | raises (msg : Str)
deriving DecidableEq, Repr

/-- Result of one REPL iteration: continue looping (with the log lines the
iteration emitted) or leave the process with the printed farewell and an
exit status. -/
inductive StepResult where
  | looped (logs : List Str)
  | exited (printed : List Str) (status : Int)
deriving DecidableEq, Repr

/-- `.strip()`: drop leading and trailing whitespace. -/
def stripStr (s : Str) : Str :=
  ((s.dropWhile Char.isWhitespace).reverse.dropWhile Char.isWhitespace).reverse

/-- `.lower()` (ASCII, which covers the reserved token). -/
def lowerStr (s : Str) : Str :=
  s.map Char.toLower

/-- The farewell line printed on exit. -/
def farewellMsg : Str := "Exiting the program....".toList

/-- The error line logged by the dispatcher's `except` clause, carrying the
offending input text, or the placeholder when it is empty/unavailable. -/
def dispatchErrorLog (command msg : Str) : Str :=
  "An error occurred while executing command ".toList ++
    (if command = [] then "<unknown>".toList else command) ++
    ": ".toList ++ msg

/-- One iteration of the `while True` loop in `App.start`: strip the input;
on the exit token print the farewell and raise
`SystemExit("Exiting the program")`; otherwise run `execute_command` and, if
it raises, log and continue. -/
def replStep (exec : Str → ExecOutcome) (input : Str) : StepResult :=
  let command := stripStr input
  if lowerStr command = "exit".toList then
    .exited [farewellMsg] (systemExitStatus (.strArg "Exiting the program".toList))
  else
    match exec command with
    | .ok => .looped []
    | .raises msg => .looped [dispatchErrorLog command msg]

/-- `true` iff the step keeps the REPL running. -/
def keepsLooping : StepResult → Bool
  | .looped _ => true
  | .exited _ _ => false

/-! ## The plugin loader (`App.load_plugins`)

`load_plugins` iterates over the subpackages of `app/plugins`; importing a
plugin may fail (caught, logged, `continue`).  For each imported module it
walks `dir(module)`; a symbol either is not a `Command` subclass (the
`issubclass` call on a non-class raises `TypeError`, swallowed by the
`except TypeError: continue` arm), or constructing/registering it raises
(caught and logged per item), or it registers fine — with the plugin's
directory name as key, passing the handler to constructors that accept a
`command_handler` parameter.  These per-symbol outcomes are the environment
the loop consumes; they are modelled as data.  `CommandHandler` itself is in
`app/commands`, which is not in the sources; `register_command` is modelled
from the spec: it stores/overwrites the name-to-command mapping and has no
error conditions. -/

/-- A registered command instance: its class name and whether it was built
with the handler injected. -/
structure CmdInst where
  cls : Str
  withHandler : Bool
deriving DecidableEq, Repr

/-- Modelled from the spec: `CommandHandler.register_command(name, command)`
of the missing `app/commands` module — stores/overwrites the mapping from
name to command instance, no error conditions. -/
def register_command (reg : List (Str × CmdInst)) (name : Str) (c : CmdInst) :
    List (Str × CmdInst) :=
  reg.filter (fun p => p.1 ≠ name) ++ [(name, c)]

/-- One symbol of an imported plugin module, as the loader's inner loop sees
it. -/
inductive ItemSpec where
  | nonCommand
  | cmdOk (cls : Str) (needsHandler : Bool)
  | cmdRaises (cls : Str)
deriving DecidableEq, Repr

/-- The import outcome of one plugin subpackage. -/
inductive ImportResult where
  | impFail
  | impOk (items : List ItemSpec)
deriving DecidableEq, Repr

/-- One plugin subpackage: its directory name and what importing it yields. -/
structure PluginSpec where
  name : Str
  imp : ImportResult
deriving DecidableEq, Repr

/-- The inner loop of `load_plugins` over the symbols of one imported plugin:
`TypeError` (non-command symbols) and per-item registration failures are
skipped; command classes are registered under the plugin's name. -/
def loadItems (pname : Str) (reg : List (Str × CmdInst)) :
    List ItemSpec → List (Str × CmdInst)
  | [] => reg
  | .nonCommand :: rest => loadItems pname reg rest
  | .cmdRaises _ :: rest => loadItems pname reg rest
  | .cmdOk cls nh :: rest =>
    loadItems pname (register_command reg pname { cls := cls, withHandler := nh }) rest

/-- The outer loop of `App.load_plugins`: a failed import is logged and
skipped (`continue`), an imported plugin has its symbols processed. -/
def load_plugins (reg : List (Str × CmdInst)) :
    List PluginSpec → List (Str × CmdInst)
  | [] => reg
  | p :: rest =>
    match p.imp with
    | .impFail => load_plugins reg rest
    | .impOk items => load_plugins (loadItems p.name reg items) rest

/-! ## Shared helper lemmas about the history-store operations -/

/-- A frame built with a fresh `RangeIndex` has canonical labels. -/
theorem labelsCanonical_mk (c : List Str) (rs : List Row) :
    labelsCanonical { cols := c, rows := indexRows rs } :=
  indexRows_canonical rs

/-- On a canonically labelled frame, an in-range `delete_entry` removes
exactly the row at zero-based position `index`. -/
theorem delete_entry_inRange (df : DF) (i : Int) (h : labelsCanonical df)
    (h0 : 0 ≤ i) (h1 : i < (df.rows.length : Int)) :
    (delete_entry i df).1.rows.map Prod.snd
      = (df.rows.map Prod.snd).eraseIdx i.toNat ∧
    (delete_entry i df).2 = true := by
  rw [delete_entry, if_pos ⟨h0, h1⟩]
  refine ⟨?_, rfl⟩
  have hdf : df.rows = indexRows (df.rows.map Prod.snd) := by
    apply eq_indexRowsFrom_of_labels
    rw [← List.range_eq_range']
    simpa using h
  calc (indexRows ((df.rows.filter (fun p => p.1 ≠ i.toNat)).map Prod.snd)).map Prod.snd
      = (df.rows.filter (fun p => p.1 ≠ i.toNat)).map Prod.snd :=
        indexRows_map_snd _
    _ = (df.rows.map Prod.snd).eraseIdx i.toNat := by
        conv_lhs => rw [hdf]
        exact filter_indexRows_ne _ _

/-- An out-of-range `delete_entry` returns the frame untouched and `false`. -/
theorem delete_entry_outRange (df : DF) (i : Int)
    (h : i < 0 ∨ (df.rows.length : Int) ≤ i) :
    delete_entry i df = (df, false) := by
  rw [delete_entry, if_neg]
  rintro ⟨h0, h1⟩
  rcases h with h | h <;> omega

/-- C6: for every integer `i` outside `[0, size)` — including negative
values, `size` and `size + 1` — `delete_entry i` returns `false` and leaves
the entry sequence unchanged; for every `i` with `0 ≤ i < size` it removes
the entry at zero-based position `i` (subsequent entries shift down by one)
and returns `true`.  (Reachable frames have canonical labels; see the C10
theorem.) -/
theorem c6_delete_entry_bounds (df : DF) (i : Int) (h : labelsCanonical df) :
    ((i < 0 ∨ (df.rows.length : Int) ≤ i) → delete_entry i df = (df, false)) ∧
    (0 ≤ i → i < (df.rows.length : Int) →
      (delete_entry i df).2 = true ∧
      (delete_entry i df).1.rows.map Prod.snd
        = (df.rows.map Prod.snd).eraseIdx i.toNat) :=
  ⟨fun hout => delete_entry_outRange df i hout,
   fun h0 h1 => ⟨(delete_entry_inRange df i h h0 h1).2,
                 (delete_entry_inRange df i h h0 h1).1⟩⟩

/-- Witness for C6 at a concrete two-row frame, with `i = -1` (out of range)
and `i = 0` (in range). -/
theorem c6_delete_entry_bounds_witness :
    labelsCanonical
      { cols := canonicalCols
        rows := indexRows
          [{ timestamp := .str "t1".toList, operation := .str "add".toList,
             inputs := .str "[1, 2]".toList, result := .int 3 },
           { timestamp := .str "t2".toList, operation := .str "sub".toList,
             inputs := .str "[5, 1]".toList, result := .int 4 }] } ∧
    delete_entry (-1)
      { cols := canonicalCols
        rows := indexRows
          [{ timestamp := .str "t1".toList, operation := .str "add".toList,
             inputs := .str "[1, 2]".toList, result := .int 3 },
           { timestamp := .str "t2".toList, operation := .str "sub".toList,
             inputs := .str "[5, 1]".toList, result := .int 4 }] }
      = ({ cols := canonicalCols
           rows := indexRows
             [{ timestamp := .str "t1".toList, operation := .str "add".toList,
                inputs := .str "[1, 2]".toList, result := .int 3 },
              { timestamp := .str "t2".toList, operation := .str "sub".toList,
                inputs := .str "[5, 1]".toList, result := .int 4 }] }, false) ∧
    (delete_entry 0
      { cols := canonicalCols
        rows := indexRows
          [{ timestamp := .str "t1".toList, operation := .str "add".toList,
             inputs := .str "[1, 2]".toList, result := .int 3 },
           { timestamp := .str "t2".toList, operation := .str "sub".toList,
             inputs := .str "[5, 1]".toList, result := .int 4 }] }).1.rows.map Prod.snd
      = [{ timestamp := .str "t2".toList, operation := .str "sub".toList,
           inputs := .str "[5, 1]".toList, result := .int 4 }] := by
  refine ⟨labelsCanonical_mk _ _, ?_, ?_⟩
  · exact (c6_delete_entry_bounds _ _ (labelsCanonical_mk _ _)).1 (by decide)
  · exact ((c6_delete_entry_bounds _ _ (labelsCanonical_mk _ _)).2 (by decide) (by decide)).2

/-- C8: `clear_history` replaces the entries with an empty sequence keeping
the canonical 4 columns, so a subsequent `get_history` (with any limit)
returns an empty sequence; the return value is never `False` on this path
(the success path returns Python `None`). -/
theorem c8_clear_history_empties (df : DF) (limit : Option Int) :
    (clear_history df).1.cols = canonicalCols ∧
    get_history limit (clear_history df).1 = [] ∧
    (clear_history df).2 ≠ some false := by
  refine ⟨rfl, ?_, by simp [clear_history]⟩
  cases limit with
  | none => rfl
  | some l => simp [get_history, clear_history, emptyDF]

/-- C9: an import failure of one plugin subpackage is skipped and loading
continues with the others, and a construction/registration failure of one
discovered symbol (or a non-command symbol) is skipped while the remaining
symbols of the module are still processed — the final registry is the one
obtained with the broken plugin/symbol removed. -/
theorem c9_load_plugins_fault_tolerant :
    (∀ (reg : List (Str × CmdInst)) (xs ys : List PluginSpec) (name : Str),
      load_plugins reg (xs ++ { name := name, imp := .impFail } :: ys)
        = load_plugins reg (xs ++ ys)) ∧
    (∀ (pname : Str) (reg : List (Str × CmdInst)) (as bs : List ItemSpec)
        (cls : Str),
      loadItems pname reg (as ++ .cmdRaises cls :: bs)
        = loadItems pname reg (as ++ bs)) ∧
    (∀ (pname : Str) (reg : List (Str × CmdInst)) (as bs : List ItemSpec),
      loadItems pname reg (as ++ .nonCommand :: bs)
        = loadItems pname reg (as ++ bs)) := by
  refine ⟨?_, ?_, ?_⟩
  · intro reg xs ys name
    induction xs generalizing reg with
    | nil => rfl
    | cons p xs ih =>
      obtain ⟨n, imp⟩ := p
      cases imp with
      | impFail => simpa [load_plugins] using ih reg
      | impOk items => simpa [load_plugins] using ih (loadItems n reg items)
  · intro pname reg as bs cls
    induction as generalizing reg with
    | nil => rfl
    | cons a as ih =>
      cases a with
      | nonCommand => simpa [loadItems] using ih reg
      | cmdRaises c => simpa [loadItems] using ih reg
      | cmdOk c nh =>
        simpa [loadItems] using ih (register_command reg pname { cls := c, withHandler := nh })
  · intro pname reg as bs
    induction as generalizing reg with
    | nil => rfl
    | cons a as ih =>
      cases a with
      | nonCommand => simpa [loadItems] using ih reg
      | cmdRaises c => simpa [loadItems] using ih reg
      | cmdOk c nh =>
        simpa [loadItems] using ih (register_command reg pname { cls := c, withHandler := nh })

/-- C10: after every history-store operation (`_load_history` via `read_csv`,
`add_calculation`, `clear_history`, `delete_entry`) the row labels of the
in-memory table are exactly `0..size-1` in insertion order, and consequently
the label-based drop inside `delete_entry` removes exactly the entry at
zero-based position `index`. -/
theorem c10_range_index_invariant :
    (∀ f : CsvFile, labelsCanonical (read_csv f)) ∧
    (∀ (ts op : Str) (ins : List Value) (res : Value) (df : DF),
      labelsCanonical (add_calculation ts op ins res df).1) ∧
    (∀ df : DF, labelsCanonical (clear_history df).1) ∧
    (∀ (i : Int) (df : DF), labelsCanonical df →
      labelsCanonical (delete_entry i df).1) ∧
    (∀ (i : Int) (df : DF), labelsCanonical df →
      0 ≤ i → i < (df.rows.length : Int) →
      (delete_entry i df).1.rows.map Prod.snd
        = (df.rows.map Prod.snd).eraseIdx i.toNat) := by
  refine ⟨?_, ?_, ?_, ?_, ?_⟩
  · intro f; exact labelsCanonical_mk f.header _
  · intro ts op ins res df; exact labelsCanonical_mk df.cols _
  · intro df; exact labelsCanonical_mk canonicalCols []
  · intro i df h
    rw [delete_entry]
    split
    · exact labelsCanonical_mk df.cols _
    · exact h
  · intro i df h h0 h1; exact (delete_entry_inRange df i h h0 h1).1

/-- Witness for C10: the invariant and the positional-delete consequence at a
concrete one-row frame. -/
theorem c10_range_index_invariant_witness :
    labelsCanonical
      (add_calculation "t1".toList "add".toList [.int 1, .int 2] (.int 3) emptyDF).1 ∧
    (delete_entry 0
      (add_calculation "t1".toList "add".toList [.int 1, .int 2] (.int 3) emptyDF).1).1.rows.map Prod.snd
      = [] := by
  constructor
  · exact c10_range_index_invariant.2.1 _ _ _ _ _
  · have h := c10_range_index_invariant.2.2.2.2 0
      (add_calculation "t1".toList "add".toList [.int 1, .int 2] (.int 3) emptyDF).1
      (labelsCanonical_mk _ _) (by decide) (by decide)
    rw [h]
    decide

end IndexLemmas

/-- C2 (amended): `search_history` performs a case-insensitive
regular-expression search of `term` against the string rendering of every
field, in original order; for terms free of regex metacharacters this
coincides exactly with case-insensitive literal-substring matching. -/
theorem c2_search_literal_when_no_meta (term : Str) (df : DF)
    (h : term.all (fun c => !(isRegexMeta c)) = true) :
    search_history term df = literalSearch term df := by
  rw [search_history, literalSearch, compilePat_of_no_meta term h]
  apply List.filter_congr
  intro p _
  congr 1
  funext s
  rw [reSearch_lits]

/-- Witness for C2 at the metacharacter-free term `add` on a concrete
two-row frame: the regex search equals the literal filter, which keeps
exactly the matching first row. -/
theorem c2_search_literal_when_no_meta_witness :
    ("add".toList.all (fun c => !(isRegexMeta c)) = true) ∧
    search_history "add".toList
      { cols := canonicalCols
        rows := indexRows
          [{ timestamp := .str "2024-01-01 10:00:00".toList,
             operation := .str "add".toList,
             inputs := .str "[1, 2]".toList, result := .int 3 },
           { timestamp := .str "2024-01-01 10:00:01".toList,
             operation := .str "multiply".toList,
             inputs := .str "[4, 5]".toList, result := .int 20 }] }
      = literalSearch "add".toList
          { cols := canonicalCols
            rows := indexRows
              [{ timestamp := .str "2024-01-01 10:00:00".toList,
                 operation := .str "add".toList,
                 inputs := .str "[1, 2]".toList, result := .int 3 },
               { timestamp := .str "2024-01-01 10:00:01".toList,
                 operation := .str "multiply".toList,
                 inputs := .str "[4, 5]".toList, result := .int 20 }] } ∧
    literalSearch "add".toList
      { cols := canonicalCols
        rows := indexRows
          [{ timestamp := .str "2024-01-01 10:00:00".toList,
             operation := .str "add".toList,
             inputs := .str "[1, 2]".toList, result := .int 3 },
           { timestamp := .str "2024-01-01 10:00:01".toList,
             operation := .str "multiply".toList,
             inputs := .str "[4, 5]".toList, result := .int 20 }] }
      = [(0, { timestamp := .str "2024-01-01 10:00:00".toList,
               operation := .str "add".toList,
               inputs := .str "[1, 2]".toList, result := .int 3 })] := by
  refine ⟨by decide, c2_search_literal_when_no_meta _ _ (by decide), by decide⟩

/-- C2 (counterexample): on a frame whose only row has operation `add`, the
term `a.d` is returned by `search_history` (the `.` is a regex wildcard under
pandas `str.contains`' default `regex=True`) even though `a.d` is not a
literal substring of any field's rendering — so the result is neither the
literal-substring filter nor the empty internal-failure sequence. -/
theorem c2_search_regex_counterexample :
    search_history "a.d".toList
      { cols := canonicalCols
        rows := indexRows
          [{ timestamp := .str "2024-01-01 10:00:00".toList,
             operation := .str "add".toList,
             inputs := .str "[1, 2]".toList, result := .int 3 }] }
      = [(0, { timestamp := .str "2024-01-01 10:00:00".toList,
               operation := .str "add".toList,
               inputs := .str "[1, 2]".toList, result := .int 3 })] ∧
    literalSearch "a.d".toList
      { cols := canonicalCols
        rows := indexRows
          [{ timestamp := .str "2024-01-01 10:00:00".toList,
             operation := .str "add".toList,
             inputs := .str "[1, 2]".toList, result := .int 3 }] }
      = [] ∧
    search_history "a.d".toList
      { cols := canonicalCols
        rows := indexRows
          [{ timestamp := .str "2024-01-01 10:00:00".toList,
             operation := .str "add".toList,
             inputs := .str "[1, 2]".toList, result := .int 3 }] }
      ≠ [] := by
  refine ⟨by decide, by decide, by decide⟩

/-- C3 (code evaluated at the failing input): an input equal to the exit
token — in any letter case, with surrounding whitespace — prints the
farewell and leaves the loop, but the raised `SystemExit` carries the string
`"Exiting the program"`, so CPython terminates the process with exit status
1, not a success indication. -/
theorem c3_exit_terminates_with_status_one :
    replStep (fun _ => .ok) "exit".toList = .exited [farewellMsg] 1 ∧
    replStep (fun _ => .ok) "  EXIT  ".toList = .exited [farewellMsg] 1 ∧
    systemExitStatus (.strArg "Exiting the program".toList) ≠ 0 := by
  refine ⟨by decide, by decide, by decide⟩

/-- C7: for every non-exit input line, whatever `execute_command` does —
including raising — the dispatcher iteration keeps the loop running, and a
raised error is logged together with the offending (stripped) input text, or
the placeholder when the input text is empty. -/
theorem c7_repl_survives_command_errors (exec : Str → ExecOutcome)
    (input : Str) (h : lowerStr (stripStr input) ≠ "exit".toList) :
    keepsLooping (replStep exec input) = true ∧
    (∀ msg, exec (stripStr input) = .raises msg →
      replStep exec input = .looped [dispatchErrorLog (stripStr input) msg]) := by
  constructor
  · simp only [replStep]
    rw [if_neg h]
    cases exec (stripStr input) <;> rfl
  · intro msg hmsg
    simp only [replStep]
    rw [if_neg h, hmsg]

/-- Witness for C7: the non-exit input `  foobar  ` with an
`execute_command` that raises keeps the loop running. -/
theorem c7_repl_survives_command_errors_witness :
    (lowerStr (stripStr "  foobar  ".toList) ≠ "exit".toList) ∧
    keepsLooping (replStep (fun _ => .raises "boom".toList) "  foobar  ".toList) = true := by
  exact ⟨by decide,
    (c7_repl_survives_command_errors (fun _ => .raises "boom".toList)
      "  foobar  ".toList (by decide)).1⟩

/-! ## Round-trip lemmas for C5 -/

/-- The inputs cells produced by `add_calculation` are string cells whose
text starts with `[` (the rendering of a Python list). -/
def isBracketedStr : Value → Bool
  | .str (c :: _) => c = '['
  | _ => false

theorem isBracketedStr_elim (v : Value) (h : isBracketedStr v = true) :
    v = .str (pyStr v) ∧ isIntString (pyStr v) = false := by
  cases v with
  | int n => simp [isBracketedStr] at h
  | str s =>
    cases s with
    | nil => simp [isBracketedStr] at h
    | cons c rest =>
      rw [isBracketedStr, decide_eq_true_eq] at h
      subst h
      refine ⟨rfl, ?_⟩
      rw [pyStr, isIntString]
      have h1 : ¬ ('[' = '-' ∨ '[' = '+') := by decide
      rw [if_neg h1]
      simp

theorem rowStable_fields (r : Row) (h : rowStable r = true) :
    cellStable r.timestamp = true ∧ cellStable r.operation = true ∧
    cellStable r.inputs = true ∧ cellStable r.result = true := by
  rw [rowStable, Bool.and_eq_true, Bool.and_eq_true, Bool.and_eq_true] at h
  exact ⟨h.1.1.1, h.1.1.2, h.1.2, h.2⟩

/-- Values of an indexed row list, after mapping a row function. -/
theorem indexRows_map_val {α : Type} (g : Row → α) (l : List Row) :
    (indexRows l).map (fun p => g p.2) = l.map g := by
  have h1 : (fun p : Nat × Row => g p.2) = g ∘ Prod.snd := rfl
  rw [h1, ← List.map_map, indexRows_map_snd]

/-- When one of the four column flags of the encoded frame is `true`, the
corresponding cell of every source row parses as an integer. -/
theorem flag_int_of_all (df : DF) (sel : Row → Value) (selC : CsvRec → Str)
    (hsel : ∀ r, selC (encodeRow r) = quoteCell (pyStr (sel r)))
    (hf : (to_csv df).recs.all (fun rec => isIntString (unquoteCell (selC rec))) = true) :
    ∀ p ∈ df.rows, isIntString (pyStr (sel p.2)) = true := by
  intro p hp
  have hmem : encodeRow p.2 ∈ (to_csv df).recs := List.mem_map_of_mem _ hp
  have h1 := List.all_eq_true.mp hf _ hmem
  rw [hsel, unquote_quote] at h1
  exact h1

/-- Rows of an encode–decode round trip, in decode-of-encode form. -/
theorem read_csv_to_csv_rows (df : DF) :
    (read_csv (to_csv df)).rows
      = indexRows (df.rows.map (fun p =>
          decodeRow (colFlags (to_csv df)) (encodeRow p.2))) := by
  rw [read_csv]
  have hrecs : (to_csv df).recs = df.rows.map (fun p => encodeRow p.2) := rfl
  rw [hrecs, List.map_map]
  rfl

/-- C5 (amended): when every stored cell's rendering is CSV-stable (non-empty
and not a text that `read_csv`'s column dtype inference rewrites, such as a
non-canonical integer literal like `007` — conditions every entry written by
the calculator's normal operation meets; commas, double quotes and newlines
are fine, since `to_csv`'s quoting and quote doubling round-trip them
verbatim) and every inputs cell is a bracketed list rendering (as
`add_calculation` always produces), `save_history` followed by a fresh load
yields the same ordered sequence of entries with field-for-field string
equality, the inputs cells are preserved exactly as text and not parsed back
into numbers, and the columns are preserved. -/
theorem c5_roundtrip_of_stable (df : DF)
    (h : df.rows.all (fun p => rowStable p.2) = true)
    (hb : df.rows.all (fun p => isBracketedStr p.2.inputs) = true) :
    (read_csv (to_csv df)).rows.map (fun p => rowStrings p.2)
      = df.rows.map (fun p => rowStrings p.2) ∧
    (read_csv (to_csv df)).rows.map (fun p => p.2.inputs)
      = df.rows.map (fun p => p.2.inputs) ∧
    (read_csv (to_csv df)).cols = df.cols := by
  have hstab := List.all_eq_true.mp h
  have hbr := List.all_eq_true.mp hb
  refine ⟨?_, ?_, rfl⟩
  · have key : ∀ p ∈ df.rows,
        rowStrings (decodeRow (colFlags (to_csv df)) (encodeRow p.2))
          = rowStrings p.2 := by
      intro p hp
      obtain ⟨hc1, hc2, hc3, hc4⟩ := rowStable_fields p.2 (hstab p hp)
      have e1 := decodeCell_render (colFlags (to_csv df)).1 p.2.timestamp hc1
        (fun hf => flag_int_of_all df Row.timestamp CsvRec.tsCell (fun r => rfl)
          hf p hp)
      have e2 := decodeCell_render (colFlags (to_csv df)).2.1 p.2.operation hc2
        (fun hf => flag_int_of_all df Row.operation CsvRec.opCell (fun r => rfl)
          hf p hp)
      have e3 := decodeCell_render (colFlags (to_csv df)).2.2.1 p.2.inputs hc3
        (fun hf => flag_int_of_all df Row.inputs CsvRec.inCell (fun r => rfl)
          hf p hp)
      have e4 := decodeCell_render (colFlags (to_csv df)).2.2.2 p.2.result hc4
        (fun hf => flag_int_of_all df Row.result CsvRec.resCell (fun r => rfl)
          hf p hp)
      simp only [rowStrings, decodeRow, encodeRow]
      rw [e1, e2, e3, e4]
    rw [read_csv_to_csv_rows, indexRows_map_val (fun r => rowStrings r),
      List.map_map]
    apply List.map_congr_left
    intro p hp
    exact key p hp
  · by_cases hfi : (colFlags (to_csv df)).2.2.1 = true
    · cases hdr : df.rows with
      | nil =>
        rw [read_csv_to_csv_rows, hdr]
        rfl
      | cons q qs =>
        exfalso
        have hq : q ∈ df.rows := by rw [hdr]; exact List.mem_cons_self q qs
        have h1 := flag_int_of_all df Row.inputs CsvRec.inCell (fun r => rfl)
          hfi q hq
        have h2 := (isBracketedStr_elim q.2.inputs (hbr q hq)).2
        rw [h1] at h2
        simp at h2
    · have hfi' : (colFlags (to_csv df)).2.2.1 = false := by
        revert hfi
        cases (colFlags (to_csv df)).2.2.1 <;> simp
      rw [read_csv_to_csv_rows, indexRows_map_val (fun r => r.inputs),
        List.map_map]
      apply List.map_congr_left
      intro p hp
      have hv := isBracketedStr_elim p.2.inputs (hbr p hp)
      show (decodeRow (colFlags (to_csv df)) (encodeRow p.2)).inputs = p.2.inputs
      rw [decodeRow]
      show decodeCell (colFlags (to_csv df)).2.2.1 (quoteCell (pyStr p.2.inputs))
        = p.2.inputs
      rw [hfi', decodeCell]
      simp only [Bool.false_eq_true, if_false]
      rw [unquote_quote]
      exact hv.1.symm

/-- Witness for C5 at a three-entry history built by three `add_calculation`
calls — including the bracketed inputs text `[10, 15]` and an operation text
carrying a comma, a double quote and a newline, which the quoting layer must
escape — the round trip preserves every field rendering and the inputs
cells. -/
theorem c5_roundtrip_of_stable_witness :
    ((add_calculation "2024-01-01 10:00:02".toList "he said \"hi\", twice\ntruly".toList
        [.int 6] (.int 6)
        (add_calculation "2024-01-01 10:00:01".toList "multiply".toList
          [.int 4, .int 5] (.int 20)
          (add_calculation "2024-01-01 10:00:00".toList "add".toList
            [.int 10, .int 15] (.int 25) emptyDF).1).1).1.rows.all
      (fun p => rowStable p.2) = true) ∧
    (read_csv (to_csv
        (add_calculation "2024-01-01 10:00:02".toList "he said \"hi\", twice\ntruly".toList
          [.int 6] (.int 6)
          (add_calculation "2024-01-01 10:00:01".toList "multiply".toList
            [.int 4, .int 5] (.int 20)
            (add_calculation "2024-01-01 10:00:00".toList "add".toList
              [.int 10, .int 15] (.int 25) emptyDF).1).1).1)).rows.map
      (fun p => rowStrings p.2)
      = (add_calculation "2024-01-01 10:00:02".toList "he said \"hi\", twice\ntruly".toList
          [.int 6] (.int 6)
          (add_calculation "2024-01-01 10:00:01".toList "multiply".toList
            [.int 4, .int 5] (.int 20)
            (add_calculation "2024-01-01 10:00:00".toList "add".toList
              [.int 10, .int 15] (.int 25) emptyDF).1).1).1.rows.map
          (fun p => rowStrings p.2) := by
  refine ⟨by decide, (c5_roundtrip_of_stable _ (by decide) (by decide)).1⟩

/-- C5 (counterexample): after the single call
`add_calculation('007', [1, 2], 3)` the stored operation rendering is `007`,
but saving and freshly loading yields `7` (the all-digit column is parsed
back as integers by `read_csv`'s dtype inference), so the round trip is not
field-for-field string equality — and the reload is a successful non-empty
load, not the internal-failure empty sequence. -/
theorem c5_roundtrip_counterexample :
    (read_csv (to_csv
        (add_calculation "2024-01-01 10:00:00".toList "007".toList
          [.int 1, .int 2] (.int 3) emptyDF).1)).rows.map
      (fun p => pyStr p.2.operation) = ["7".toList] ∧
    (add_calculation "2024-01-01 10:00:00".toList "007".toList
      [.int 1, .int 2] (.int 3) emptyDF).1.rows.map
      (fun p => pyStr p.2.operation) = ["007".toList] ∧
    (read_csv (to_csv
        (add_calculation "2024-01-01 10:00:00".toList "007".toList
          [.int 1, .int 2] (.int 3) emptyDF).1)).rows.map
      (fun p => rowStrings p.2)
      ≠ (add_calculation "2024-01-01 10:00:00".toList "007".toList
          [.int 1, .int 2] (.int 3) emptyDF).1.rows.map
          (fun p => rowStrings p.2) ∧
    (read_csv (to_csv
        (add_calculation "2024-01-01 10:00:00".toList "007".toList
          [.int 1, .int 2] (.int 3) emptyDF).1)).rows ≠ [] := by
  refine ⟨by decide, by decide, by decide, by decide⟩

/-- C1 (code evaluated at the failing input): with a one-entry history file,
the first `HistoryManager()` loads one row; a plain method call then adds a
second row in memory; but a further `HistoryManager()` construction re-runs
`__init__` — the guard `getattr(self, '__initialized', False)` reads the
unmangled attribute name, which no assignment ever creates, so it yields
`False` even on the already-initialized instance — and reloads the frame
from the file, discarding the in-memory entry. -/
def seedRow : Row :=
  { timestamp := .str "t0".toList, operation := .str "add".toList,
    inputs := .str "[5]".toList, result := .int 3 }

/-- A persisted history file holding exactly `seedRow`. -/
def seedFile : CsvFile :=
  to_csv { cols := canonicalCols, rows := indexRows [seedRow] }

/-- The process state after the first `HistoryManager()` of a process whose
history file holds one entry. -/
def afterFirstConstruct : ProcState :=
  constructHM { file := some seedFile, inst := none }

/-- One more entry added in memory by a plain method call on the existing
instance (no construction, no save). -/
def afterMethodAdd : ProcState :=
  instAdd "t2".toList "sub".toList [.int 7] (.int 7) afterFirstConstruct

/-- The state after a subsequent `HistoryManager()` construction. -/
def afterSecondConstruct : ProcState :=
  constructHM afterMethodAdd

theorem c1_reinit_on_every_construction :
    afterFirstConstruct.inst.map
      (fun o => (o.df.rows.length, getattrB o plainInitName false))
      = some (1, false) ∧
    afterMethodAdd.inst.map (fun o => o.df.rows.length) = some 2 ∧
    afterSecondConstruct.inst.map (fun o => o.df.rows.length) = some 1 := by
  refine ⟨by decide, by decide, by decide⟩

/-- C4 (counterexample): starting a process with no history file, the
history steps of `App.__init__` — `HistoryManager()`, then
`HistoryManager().add_calculation('add', [1, 2], 3)`, then
`HistoryManager().save_history()` — leave a persisted file with zero
entries: the construction inside the save call re-runs `__init__` and
reloads the (absent) file, discarding the just-appended entry before
`to_csv` runs.  The in-memory frame did briefly hold the entry after the
add step. -/
theorem c4_startup_entry_not_persisted :
    (appInitHistory "2024-01-01 10:00:00".toList
      { file := none, inst := none }).file
      = some { header := canonicalCols, recs := [] } ∧
    (hmCallAdd "2024-01-01 10:00:00".toList "add".toList [.int 1, .int 2]
      (.int 3) (constructHM { file := none, inst := none })).inst.map
      (fun o => o.df.rows.map (fun p => pyStr p.2.operation))
      = some ["add".toList] ∧
    ((appInitHistory "2024-01-01 10:00:00".toList
      { file := none, inst := none }).file.map (fun f => f.recs.length))
      = some 0 := by
  refine ⟨by decide, by decide, by decide⟩

/-- C4 (amended): every `App.__init__` run calls
`add_calculation('add', [1, 2], 3)` and `save_history()` on the singleton,
and the entry does appear in the in-memory frame right after the add call;
but the construction inside each `HistoryManager()` re-runs initialization
and reloads the frame from the file, so the save writes back exactly the
previously persisted contents (re-serialized; the file is created with
headers only when absent) — the appended entry is never persisted. -/
theorem c4_save_discards_startup_entry (ts : Str) (f : Option CsvFile) :
    (appInitHistory ts { file := f, inst := none }).file
      = some (to_csv (load_history f)) ∧
    (hmCallAdd ts "add".toList [.int 1, .int 2] (.int 3)
      (constructHM { file := f, inst := none })).inst.map
      (fun o => o.df.rows.map Prod.snd)
      = some ((load_history f).rows.map Prod.snd ++
          [{ timestamp := .str ts, operation := .str "add".toList,
             inputs := .str (pyStrList [.int 1, .int 2]), result := .int 3 }]) := by
  constructor
  · rfl
  · exact congrArg some (indexRows_map_snd _)
